import Mathlib

/-!
# Verification of the PassionOfRugs lead-resolution core

Shallow embedding of the resolution-and-caching engine:
* `normalize_phone` / `clean_phone` (cache_manager.py, lead_processor_v2.py),
* the `CacheManager` lookup store (cache_manager.py),
* the recursive person extractor and result accumulators (dialer_gui.py),
* the free-text address parser (lead_processor_v2.py).

Python values flowing through the JSON documents are modelled by the
`Json` inductive type (Python `None` is `Json.null`); Python strings are
Lean `String`s; Python dicts appearing in documents are association lists
in insertion order (keys unique in practice); truthiness follows Python.
-/

set_option maxRecDepth 10000

namespace PassionOfRugs

/-- JSON-like dynamic values, standing for the Python values that appear in
lookup documents. `null` is Python `None`. -/
inductive Json where
  | null : Json
  | bool : Bool → Json
  | num : Int → Json
  | str : String → Json
  | arr : List Json → Json
  | obj : List (String × Json) → Json

mutual

/-- Boolean equality on `Json`, by mutual recursion through arrays and
objects. -/
def Json.beq : Json → Json → Bool
  | .null, .null => true
  | .bool a, .bool b => a == b
  | .num a, .num b => a == b
  | .str a, .str b => a == b
  | .arr a, .arr b => Json.beqList a b
  | .obj a, .obj b => Json.beqFields a b
  | _, _ => false

/-- Elementwise equality of `Json` arrays. -/
def Json.beqList : List Json → List Json → Bool
  | [], [] => true
  | x :: xs, y :: ys => Json.beq x y && Json.beqList xs ys
  | _, _ => false

/-- Elementwise equality of `Json` object field lists. -/
def Json.beqFields : List (String × Json) → List (String × Json) → Bool
  | [], [] => true
  | (k1, v1) :: xs, (k2, v2) :: ys =>
      k1 == k2 && Json.beq v1 v2 && Json.beqFields xs ys
  | _, _ => false

end

mutual

/-- `Json.beq` decides propositional equality. -/
def Json.beqSound : (a b : Json) → (Json.beq a b = true ↔ a = b)
  | .null, b => by cases b <;> simp [Json.beq]
  | .bool x, b => by cases b <;> simp [Json.beq]
  | .num x, b => by cases b <;> simp [Json.beq]
  | .str x, b => by cases b <;> simp [Json.beq]
  | .arr xs, b => by
      cases b <;> simp [Json.beq]
      case arr ys => exact Json.beqListSound xs ys
  | .obj xs, b => by
      cases b <;> simp [Json.beq]
      case obj ys => exact Json.beqFieldsSound xs ys

/-- `Json.beqList` decides equality of arrays. -/
def Json.beqListSound : (xs ys : List Json) → (Json.beqList xs ys = true ↔ xs = ys)
  | [], ys => by cases ys <;> simp [Json.beqList]
  | x :: xs, [] => by simp [Json.beqList]
  | x :: xs, y :: ys => by
      simp [Json.beqList, Bool.and_eq_true, Json.beqSound x y, Json.beqListSound xs ys]

/-- `Json.beqFields` decides equality of field lists. -/
def Json.beqFieldsSound :
    (xs ys : List (String × Json)) → (Json.beqFields xs ys = true ↔ xs = ys)
  | [], ys => by cases ys <;> simp [Json.beqFields]
  | (k1, v1) :: xs, [] => by simp [Json.beqFields]
  | (k1, v1) :: xs, (k2, v2) :: ys => by
      simp [Json.beqFields, Bool.and_eq_true, Json.beqSound v1 v2,
        Json.beqFieldsSound xs ys, and_assoc]

end

instance : DecidableEq Json := fun a b => decidable_of_iff _ (Json.beqSound a b)

/-- Python truthiness (`bool(x)`). -/
def Json.truthy : Json → Bool
  | .null => false
  | .bool b => b
  | .num n => decide (n ≠ 0)
  | .str s => decide (s ≠ "")
  | .arr l => !l.isEmpty
  | .obj f => !f.isEmpty

/-- First binding of a key in an association list (Python dicts have unique
keys; insertion order is preserved). -/
def lookupField : List (String × Json) → String → Option Json
  | [], _ => none
  | (k, v) :: rest, key => if k = key then some v else lookupField rest key

/-- Python `d.get(k)`: `none` when the key is absent or the value is not a dict. -/
def Json.get : Json → String → Option Json
  | .obj fields, key => lookupField fields key
  | _, _ => none

/-- Python `d.get(k)` seen as a value: absent keys give `None`. -/
def Json.getD (j : Json) (k : String) : Json := (j.get k).getD Json.null

/-- Python `k in d` for a dict. -/
def Json.hasKey (j : Json) (k : String) : Bool :=
  match j with
  | .obj fields => fields.any (fun kv => kv.1 = k)
  | _ => false

def Json.isObj : Json → Bool
  | .obj _ => true
  | _ => false

/-! ## Character-level string helpers (Python str methods) -/

/-- Characters kept by `re.sub(r'[^\d+]', '', s)`: digits and `+`. -/
def keepChar (c : Char) : Bool := c.isDigit || c = '+'

/-- Python `str.strip()` (both ends, whitespace). -/
def pyStrip (l : List Char) : List Char :=
  ((l.dropWhile Char.isWhitespace).reverse.dropWhile Char.isWhitespace).reverse

/-- Drop trailing characters satisfying `p` (Python `str.rstrip(chars)`). -/
def dropTrailing (p : Char → Bool) (l : List Char) : List Char :=
  (l.reverse.dropWhile p).reverse

/-- Drop leading characters satisfying `p` (Python `str.lstrip(chars)`). -/
def dropLeading (p : Char → Bool) (l : List Char) : List Char :=
  l.dropWhile p

/-! ## Phone normalization

`CacheManager.normalize_phone` (cache_manager.py lines 45-69). -/

/-- Core of `normalize_phone` on the character list of a non-empty input. -/
def normalize_phone_chars (l : List Char) : List Char :=
  let pc := l.filter keepChar
  if pc.head? = some '+' then pc
  else if pc.head? = some '1' ∧ pc.length = 11 then '+' :: pc
  else if pc.length = 10 then '+' :: '1' :: pc
  else if pc.length = 11 then '+' :: pc
  else pc

/-- `CacheManager.normalize_phone`: strip every character except digits and
`+`, then apply the E.164 prefix rules. Empty (falsy) input returns `""`. -/
def normalize_phone (phone : String) : String :=
  if phone = "" then ""
  else String.mk (normalize_phone_chars phone.data)

/-- `LeadProcessor.clean_phone` (lead_processor_v2.py lines 224-240): same
cleaning, after a `strip()`, with the 11-digit fallback spelled with an
explicit `not startswith('1')`. -/
def clean_phone (phone : String) : String :=
  let pc := (pyStrip phone.data).filter keepChar
  if pc.head? = some '+' then String.mk pc
  else if pc.head? = some '1' ∧ pc.length = 11 then String.mk ('+' :: pc)
  else if pc.length = 10 then String.mk ('+' :: '1' :: pc)
  else if pc.length = 11 ∧ ¬ pc.head? = some '1' then String.mk ('+' :: pc)
  else String.mk pc

/-! ### Idempotence of `normalize_phone` -/

lemma filter_keepChar_idem (l : List Char) :
    (l.filter keepChar).filter keepChar = l.filter keepChar := by
  simp [List.filter_filter]

lemma filter_keepChar_of_all (l : List Char) (h : ∀ c ∈ l, keepChar c = true) :
    l.filter keepChar = l :=
  List.filter_eq_self.mpr h

lemma all_keep_of_filtered (l : List Char) :
    ∀ c ∈ l.filter keepChar, keepChar c = true := by
  intro c hc
  exact List.of_mem_filter hc

lemma normalize_phone_chars_idem (l : List Char) :
    normalize_phone_chars (normalize_phone_chars l) = normalize_phone_chars l := by
  unfold normalize_phone_chars
  set pc := l.filter keepChar with hpc
  have hkeep : ∀ c ∈ pc, keepChar c = true := all_keep_of_filtered l
  have hself : pc.filter keepChar = pc := filter_keepChar_of_all pc hkeep
  have hplus : ('+' :: pc).filter keepChar = '+' :: pc := by
    apply filter_keepChar_of_all
    intro c hc
    rcases List.mem_cons.mp hc with h | h
    · subst h; decide
    · exact hkeep c h
  have hplus1 : ('+' :: '1' :: pc).filter keepChar = '+' :: '1' :: pc := by
    apply filter_keepChar_of_all
    intro c hc
    rcases List.mem_cons.mp hc with h | h
    · subst h; decide
    rcases List.mem_cons.mp h with h' | h'
    · subst h'; decide
    · exact hkeep c h'
  by_cases h1 : pc.head? = some '+'
  · simp only [h1, if_pos]
    simp [hself, h1]
  · by_cases h2 : pc.head? = some '1' ∧ pc.length = 11
    · simp only [h1, if_neg, h2, if_pos, hplus]
      simp [hplus]
    · by_cases h3 : pc.length = 10
      · have h4 : ¬ pc.length = 11 := by omega
        simp only [h1, h2, h3, if_neg, if_pos, not_false_iff]
        simp [hplus1]
      · by_cases h5 : pc.length = 11
        · simp only [h1, h2, h3, h5, if_neg, if_pos, not_false_iff]
          simp [hplus]
        · simp only [h1, h2, h3, h5, if_neg, not_false_iff]
          simp [hself, h1, h2, h3, h5]

lemma normalize_phone_eq_mk (x : String) (hx : ¬ x = "") :
    normalize_phone x = String.mk (normalize_phone_chars x.data) := by
  simp [normalize_phone, hx]

/-- C3. Phone normalization is idempotent on every input string. -/
theorem normalize_phone_idempotent (x : String) :
    normalize_phone (normalize_phone x) = normalize_phone x := by
  by_cases hx : x = ""
  · simp [normalize_phone, hx]
  · rw [normalize_phone_eq_mk x hx]
    by_cases hy : String.mk (normalize_phone_chars x.data) = ""
    · rw [hy]
      simp [normalize_phone]
    · rw [normalize_phone_eq_mk _ hy]
      show String.mk (normalize_phone_chars (normalize_phone_chars x.data)) = _
      rw [normalize_phone_chars_idem]

/-! ## Cache manager (cache_manager.py)

`save_cache` is write-through and atomic; the on-disk document is modelled
by the `disk` field, which `save_cache` overwrites with the current
in-memory `lookups` map.  Timestamps come from the clock; the current time
is passed in as an explicit `now` argument. -/

/-- One entry of the `lookups` map (`store_lookup` lines 201-209):
`ai_analysis` is present only when a truthy analysis was supplied. -/
structure CacheEntry where
  timestamp : String
  reverse_phone : Json
  reverse_address : Json
  ai_analysis : Option Json
deriving DecidableEq

/-- In-memory state of a `CacheManager` plus its persisted document. -/
structure CacheState where
  lookups : List (String × CacheEntry)
  disk : List (String × CacheEntry)
  cache_hits : Nat
  cache_misses : Nat
  api_calls_saved : Nat
deriving DecidableEq

/-- State right after `__init__` on a fresh cache file. -/
def initial_cache_state : CacheState :=
  { lookups := [], disk := [], cache_hits := 0, cache_misses := 0, api_calls_saved := 0 }

/-- `lookups[key] = entry` on a Python dict: replace in place if the key
exists, else append (insertion order preserved). -/
def setKey (key : String) (e : CacheEntry) :
    List (String × CacheEntry) → List (String × CacheEntry)
  | [] => [(key, e)]
  | (k, v) :: rest => if k = key then (key, e) :: rest else (k, v) :: setKey key e rest

/-- `key in lookups` / `lookups[key]` lookup. -/
def getKey (key : String) : List (String × CacheEntry) → Option CacheEntry
  | [] => none
  | (k, v) :: rest => if k = key then some v else getKey key rest

/-- `CacheManager.get_cached_lookup` (lines 141-174): returns the cached
triple and the updated statistics counters. -/
def get_cached_lookup (st : CacheState) (phone : String) :
    Option (Json × Json × Json) × CacheState :=
  let np := normalize_phone phone
  if np = "" then (none, st)
  else
    match getKey np st.lookups with
    | some entry =>
        (some (entry.reverse_phone, entry.reverse_address,
               entry.ai_analysis.getD (Json.obj [])),
         { st with cache_hits := st.cache_hits + 1,
                   api_calls_saved := st.api_calls_saved + 2 })
    | none =>
        (none, { st with cache_misses := st.cache_misses + 1 })

/-- `CacheManager.store_lookup` (lines 176-216): refuse an empty key or two
falsy responses; otherwise store the entry and persist (`save_cache`
rewrites the whole document; disk writes are assumed to succeed). -/
def store_lookup (st : CacheState) (phone : String)
    (reverse_phone_response reverse_address_response : Json)
    (ai_analysis : Option Json) (now : String) : Bool × CacheState :=
  let np := normalize_phone phone
  if np = "" then (false, st)
  else if ¬ reverse_phone_response.truthy ∧ ¬ reverse_address_response.truthy then
    (false, st)
  else
    let entry : CacheEntry :=
      { timestamp := now,
        reverse_phone := reverse_phone_response,
        reverse_address := reverse_address_response,
        ai_analysis :=
          match ai_analysis with
          | some a => if a.truthy then some a else none
          | none => none }
    let lookups2 := setKey np entry st.lookups
    (true, { st with lookups := lookups2, disk := lookups2 })

lemma getKey_setKey (key : String) (e : CacheEntry) (l : List (String × CacheEntry)) :
    getKey key (setKey key e l) = some e := by
  induction l with
  | nil => simp [setKey, getKey]
  | cons kv rest ih =>
      obtain ⟨k, v⟩ := kv
      by_cases hk : k = key
      · simp [setKey, getKey, hk]
      · simp [setKey, getKey, hk, ih]

/-- C1 (counterexample). Putting a non-empty phone document and reading it
back yields the empty dict `\x7b\x7d` — not Python `None` — as the third
component: `get_cached_lookup` defaults the absent `ai_analysis` to `{}`
via `entry.get('ai_analysis', {})`. -/
theorem cache_roundtrip_counterexample :
    (get_cached_lookup
      (store_lookup initial_cache_state "4155551234"
        (Json.obj [("id", Json.str "x")]) (Json.obj []) none "t0").2
      "4155551234").1
      = some (Json.obj [("id", Json.str "x")], Json.obj [], Json.obj [])
    ∧ (Json.obj [] : Json) ≠ Json.null := by
  constructor
  · rfl
  · decide

/-- C1 (amended). For every phone whose key normalizes non-empty and every
document pair with at least one truthy member, `store_lookup` with no
derived analysis followed by `get_cached_lookup` returns the two raw
documents unchanged and the empty dict (the `.get` default) for the absent
analysis. -/
theorem cache_roundtrip_returns_empty_analysis
    (st : CacheState) (p : String) (A B : Json) (now : String)
    (hk : normalize_phone p ≠ "")
    (hAB : A.truthy = true ∨ B.truthy = true) :
    (get_cached_lookup (store_lookup st p A B none now).2 p).1
      = some (A, B, Json.obj []) := by
  have hne : ¬ (¬ A.truthy ∧ ¬ B.truthy) := by
    rcases hAB with h | h <;> simp [h]
  unfold store_lookup
  simp only [hk, if_neg, hne, ite_false, not_false_iff]
  unfold get_cached_lookup
  simp [hk, getKey_setKey, Option.getD]

/-- C1 witness: the amended round trip at a concrete input. -/
theorem cache_roundtrip_returns_empty_analysis_witness :
    (get_cached_lookup
      (store_lookup initial_cache_state "(415) 555-0000"
        (Json.obj [("owners", Json.arr [])]) Json.null none "t1").2
      "(415) 555-0000").1
      = some (Json.obj [("owners", Json.arr [])], Json.null, Json.obj []) :=
  cache_roundtrip_returns_empty_analysis initial_cache_state "(415) 555-0000"
    (Json.obj [("owners", Json.arr [])]) Json.null "t1"
    (by decide) (Or.inl (by decide))

/-- C4. `store_lookup` with two falsy response documents returns `false`
and leaves the whole cache state — in-memory map, persisted document and
counters — unchanged, for any phone key and optional analysis. -/
theorem store_lookup_rejects_empty
    (st : CacheState) (p : String) (A B : Json) (ai : Option Json) (now : String)
    (hA : A.truthy = false) (hB : B.truthy = false) :
    store_lookup st p A B ai now = (false, st) := by
  unfold store_lookup
  by_cases hk : normalize_phone p = ""
  · simp [hk]
  · simp [hk, hA, hB]

/-- C4 witness: two empty dicts are rejected without touching the state. -/
theorem store_lookup_rejects_empty_witness :
    store_lookup initial_cache_state "4155551234" (Json.obj []) (Json.obj [])
      none "t0" = (false, initial_cache_state) :=
  store_lookup_rejects_empty initial_cache_state "4155551234"
    (Json.obj []) (Json.obj []) none "t0" (by decide) (by decide)

/-- C9. When the phone normalizes to the empty string, `store_lookup`
returns `false` before examining the documents: for every pair of response
documents (truthy or not) and any analysis the state is unchanged, so no
entry is ever created under the empty key. -/
theorem store_lookup_empty_key_noop
    (st : CacheState) (p : String) (A B : Json) (ai : Option Json) (now : String)
    (hk : normalize_phone p = "") :
    store_lookup st p A B ai now = (false, st) := by
  unfold store_lookup
  simp [hk]

/-- C9 witness: a letters-only phone normalizes empty and is refused even
with truthy documents. -/
theorem store_lookup_empty_key_noop_witness :
    normalize_phone "abc" = ""
    ∧ store_lookup initial_cache_state "abc" (Json.obj [("k", Json.num 1)])
        (Json.obj [("k", Json.num 2)]) (some (Json.num 3)) "t0"
        = (false, initial_cache_state) :=
  ⟨by decide,
   store_lookup_empty_key_noop initial_cache_state "abc"
     (Json.obj [("k", Json.num 1)]) (Json.obj [("k", Json.num 2)])
     (some (Json.num 3)) "t0" (by decide)⟩

/-! ## Person extraction (dialer_gui.py `extract_people_from_data`, lines 1811-1902)

Supporting helpers come from lead_processor_v2.py (`extract_age`,
`format_address`). -/

mutual

/-- Python `repr(x)` for `Json` values (string escaping inside quotes is
not reproduced; no claim depends on it). -/
def pyRepr : Json → String
  | .null => "None"
  | .bool b => if b then "True" else "False"
  | .num n => toString n
  | .str s => "'" ++ s ++ "'"
  | .arr l => "[" ++ pyReprList l ++ "]"
  | .obj f => "\x7b" ++ pyReprFields f ++ "\x7d"

/-- Comma-separated `repr` of list elements. -/
def pyReprList : List Json → String
  | [] => ""
  | [x] => pyRepr x
  | x :: y :: rest => pyRepr x ++ ", " ++ pyReprList (y :: rest)

/-- Comma-separated `repr` of dict items. -/
def pyReprFields : List (String × Json) → String
  | [] => ""
  | [(k, v)] => "'" ++ k ++ "': " ++ pyRepr v
  | (k, v) :: kv :: rest =>
      "'" ++ k ++ "': " ++ pyRepr v ++ ", " ++ pyReprFields (kv :: rest)

end

/-- Python `str(x)`: identity on strings, `repr`-like elsewhere. -/
def pyStr : Json → String
  | .str s => s
  | j => pyRepr j

/-- `LeadProcessor.extract_age` (lead_processor_v2.py lines 373-379):
prefer a truthy `age` field (stringified), else a truthy `age_range`
(returned raw), else `""`. -/
def extract_age (person_data : Json) : Json :=
  if person_data.hasKey "age" ∧ (person_data.getD "age").truthy then
    Json.str (pyStr (person_data.getD "age"))
  else if person_data.hasKey "age_range" ∧ (person_data.getD "age_range").truthy then
    person_data.getD "age_range"
  else Json.str ""

/-- `LeadProcessor.format_address` (lead_processor_v2.py lines 390-403):
join the truthy components with `, ` (values are strings in practice). -/
def format_address (address_data : Json) : String :=
  if ¬ address_data.truthy then ""
  else
    String.intercalate ", "
      ((["street_line_1", "city", "state_code", "postal_code"]).filterMap
        (fun k =>
          let v := address_data.getD k
          if v.truthy then some (pyStr v) else none))

/-- Append a phone candidate if it is not already present
(`if x not in person_info['phones']: append`). -/
def addIfNew (acc : List Json) (x : Json) : List Json :=
  if x ∈ acc then acc else acc ++ [x]

/-- Same dedup-append for formatted address strings. -/
def addIfNewStr (acc : List String) (x : String) : List String :=
  if x ∈ acc then acc else acc ++ [x]

/-- Items of a field when it is a truthy list
(`if obj.get(k) and isinstance(obj[k], list)`). -/
def listItems (j : Json) (k : String) : List Json :=
  match j.getD k with
  | .arr items => if (Json.arr items).truthy then items else []
  | _ => []

/-- First truthy value of a chain `a or b or c` of `d.get(...)` reads;
`none` when every alternative is falsy. -/
def firstTruthy : List Json → Option Json
  | [] => none
  | v :: rest => if v.truthy then some v else firstTruthy rest

/-- Phone candidate of one `alternate_phones` entry (lines 1833-1837):
dict entries only, single field name `phoneNumber`. -/
def altPhoneOf (e : Json) : Option Json :=
  match e with
  | .obj _ => if (e.getD "phoneNumber").truthy then some (e.getD "phoneNumber") else none
  | _ => none

/-- Phone candidate of one `phones` entry (lines 1840-1849): dict entries
under `phone_number` / `phoneNumber` / `phone`, or a bare string. -/
def phonesEntryOf (e : Json) : Option Json :=
  match e with
  | .obj _ => firstTruthy [e.getD "phone_number", e.getD "phoneNumber", e.getD "phone"]
  | .str s => if (Json.str s).truthy then some (Json.str s) else none
  | _ => none

/-- Phone candidate of one `phone_numbers` entry (lines 1852-1861): dict
entries under `phone_number` / `phoneNumber`, or a bare string. -/
def phoneNumbersEntryOf (e : Json) : Option Json :=
  match e with
  | .obj _ => firstTruthy [e.getD "phone_number", e.getD "phoneNumber"]
  | .str s => if (Json.str s).truthy then some (Json.str s) else none
  | _ => none

/-- Fold one candidate list into the accumulated phone list, skipping
entries without a usable number and duplicates. -/
def foldPhones (f : Json → Option Json) (acc : List Json) (items : List Json) :
    List Json :=
  items.foldl
    (fun a e =>
      match f e with
      | some x => addIfNew a x
      | none => a)
    acc

/-- The four phone-collection blocks of `extract_people_from_data`
(lines 1832-1865), in source order. -/
def extract_phones (j : Json) : List Json :=
  let acc1 := foldPhones altPhoneOf [] (listItems j "alternate_phones")
  let acc2 := foldPhones phonesEntryOf acc1 (listItems j "phones")
  let acc3 := foldPhones phoneNumbersEntryOf acc2 (listItems j "phone_numbers")
  if (j.getD "phone").truthy then addIfNew acc3 (j.getD "phone") else acc3

/-- Formatted address of one `current_addresses` / `historical_addresses`
entry (lines 1868-1881): dict entries only, kept when non-empty. -/
def addrEntryOf (e : Json) : Option String :=
  match e with
  | .obj _ =>
      let fa := format_address e
      if fa ≠ "" then some fa else none
  | _ => none

/-- Fold one address list into the accumulated formatted-address list. -/
def foldAddrs (acc : List String) (items : List Json) : List String :=
  items.foldl
    (fun a e =>
      match addrEntryOf e with
      | some x => addIfNewStr a x
      | none => a)
    acc

/-- The two address-collection blocks of `extract_people_from_data`. -/
def extract_addresses (j : Json) : List String :=
  let acc1 := foldAddrs [] (listItems j "current_addresses")
  foldAddrs acc1 (listItems j "historical_addresses")

/-- A candidate person record (`person_info` dict, lines 1825-1830). -/
structure Person where
  name : Json
  age : Json
  phones : List Json
  addresses : List String
deriving DecidableEq

/-- The name a map node would be emitted under (line 1822):
`obj.get('name') or f"{firstname} {lastname}".strip()`. -/
def person_name (j : Json) : Json :=
  if (j.getD "name").truthy then j.getD "name"
  else
    Json.str (String.mk (pyStrip
      (pyStr ((j.get "firstname").getD (Json.str "")) ++ " "
        ++ pyStr ((j.get "lastname").getD (Json.str ""))).data))

/-- The person record built from a map node that passed both name checks. -/
def mk_person (j : Json) : Person :=
  { name := person_name j
    age := extract_age j
    phones := extract_phones j
    addresses := extract_addresses j }

/-- Lines 1821-1824: emit a person iff some name field is truthy and the
resulting `person_name` is truthy. -/
def person_of (j : Json) : Option Person :=
  if (j.getD "name").truthy ∨ (j.getD "firstname").truthy
      ∨ (j.getD "lastname").truthy then
    if (person_name j).truthy then some (mk_person j) else none
  else none

mutual

/-- `traverse` (lines 1815-1892): DFS over a node. Non-dict and empty-dict
(falsy) nodes return nothing; otherwise emit the node's person record (if
any) and recurse into the field values. -/
def traverse : Json → List Person
  | .obj fields =>
      if fields.isEmpty then []
      else (person_of (Json.obj fields)).toList ++ traverseFields fields
  | _ => []

/-- Lines 1886-1892: for each field value, recurse into dict values and
into the dict items of list values; everything else (including lists
nested directly inside lists) is skipped. -/
def traverseFields : List (String × Json) → List Person
  | [] => []
  | (_, v) :: rest => traverseChild v ++ traverseFields rest

/-- Dispatch on one field value. -/
def traverseChild : Json → List Person
  | .obj fields => traverse (Json.obj fields)
  | .arr items => traverseItems items
  | _ => []

/-- Items of a list value: only dict items are traversed. -/
def traverseItems : List Json → List Person
  | [] => []
  | item :: rest =>
      (match item with
       | .obj fields => traverse (Json.obj fields)
       | _ => []) ++ traverseItems rest

end

/-- `extract_people_from_data` (lines 1894-1902): dict and list top level. -/
def extract_people_from_data (data : Json) : List Person :=
  match data with
  | .obj _ => traverse data
  | .arr items => traverseItems items
  | _ => []

mutual

/-- The dict nodes on which `traverse` runs its person check, in DFS
order (mirrors the recursion of `traverse`). -/
def visitedNodes : Json → List Json
  | .obj fields =>
      if fields.isEmpty then []
      else Json.obj fields :: visitedFields fields
  | _ => []

def visitedFields : List (String × Json) → List Json
  | [] => []
  | (_, v) :: rest => visitedChild v ++ visitedFields rest

def visitedChild : Json → List Json
  | .obj fields => visitedNodes (Json.obj fields)
  | .arr items => visitedItems items
  | _ => []

def visitedItems : List Json → List Json
  | [] => []
  | item :: rest =>
      (match item with
       | .obj fields => visitedNodes (Json.obj fields)
       | _ => []) ++ visitedItems rest

end

/-- The nodes the extractor visits at top level. -/
def visitedTop (data : Json) : List Json :=
  match data with
  | .obj _ => visitedNodes data
  | .arr items => visitedItems items
  | _ => []

mutual

/-- The traversal emits exactly the visited nodes' person records. -/
def traverse_eq_visited :
    (j : Json) → traverse j = (visitedNodes j).filterMap person_of
  | .obj fields => by
      by_cases h : fields.isEmpty
      · simp [traverse, visitedNodes, h]
      · simp only [traverse, visitedNodes, h, if_neg, ite_false,
          List.filterMap_cons]
        rw [traverseFields_eq_visited fields]
        cases hp : person_of (Json.obj fields) <;> simp [hp]
  | .null => by simp [traverse, visitedNodes]
  | .bool b => by simp [traverse, visitedNodes]
  | .num n => by simp [traverse, visitedNodes]
  | .str s => by simp [traverse, visitedNodes]
  | .arr l => by simp [traverse, visitedNodes]

def traverseFields_eq_visited :
    (fs : List (String × Json)) →
      traverseFields fs = (visitedFields fs).filterMap person_of
  | [] => by simp [traverseFields, visitedFields]
  | (k, v) :: rest => by
      simp only [traverseFields, visitedFields, List.filterMap_append]
      rw [traverseChild_eq_visited v, traverseFields_eq_visited rest]

def traverseChild_eq_visited :
    (v : Json) → traverseChild v = (visitedChild v).filterMap person_of
  | .obj fields => by
      simp only [traverseChild, visitedChild]
      exact traverse_eq_visited (Json.obj fields)
  | .arr items => by
      simp only [traverseChild, visitedChild]
      exact traverseItems_eq_visited items
  | .null => by simp [traverseChild, visitedChild]
  | .bool b => by simp [traverseChild, visitedChild]
  | .num n => by simp [traverseChild, visitedChild]
  | .str s => by simp [traverseChild, visitedChild]

def traverseItems_eq_visited :
    (items : List Json) →
      traverseItems items = (visitedItems items).filterMap person_of
  | [] => by simp [traverseItems, visitedItems]
  | item :: rest => by
      cases item with
      | obj fields =>
          simp only [traverseItems, visitedItems, List.filterMap_append]
          rw [traverse_eq_visited (Json.obj fields), traverseItems_eq_visited rest]
      | null =>
          simp only [traverseItems, visitedItems, List.nil_append]
          exact traverseItems_eq_visited rest
      | bool b =>
          simp only [traverseItems, visitedItems, List.nil_append]
          exact traverseItems_eq_visited rest
      | num n =>
          simp only [traverseItems, visitedItems, List.nil_append]
          exact traverseItems_eq_visited rest
      | str s =>
          simp only [traverseItems, visitedItems, List.nil_append]
          exact traverseItems_eq_visited rest
      | arr l =>
          simp only [traverseItems, visitedItems, List.nil_append]
          exact traverseItems_eq_visited rest

end

/-- Top-level version of the characterization. -/
lemma extract_eq_visited (data : Json) :
    extract_people_from_data data = (visitedTop data).filterMap person_of := by
  cases data <;>
    simp [extract_people_from_data, visitedTop, traverse_eq_visited,
      traverseItems_eq_visited]

/-- C5 (counterexample). A named map nested inside a list that is itself
inside a list is never reached: the walk iterates only the dict items of a
list, so the inner list — and the person inside it — is skipped, and the
extraction is empty. -/
theorem traversal_nested_list_counterexample :
    extract_people_from_data
        (Json.obj [("a", Json.arr [Json.arr [Json.obj [("name", Json.str "Bob")]]])])
      = []
    ∧ visitedNodes
        (Json.obj [("a", Json.arr [Json.arr [Json.obj [("name", Json.str "Bob")]]])])
      = [Json.obj [("a", Json.arr [Json.arr [Json.obj [("name", Json.str "Bob")]]])]]
    ∧ person_of (Json.obj [("name", Json.str "Bob")])
      = some (mk_person (Json.obj [("name", Json.str "Bob")])) := by
  refine ⟨?_, ?_, ?_⟩
  · simp only [extract_people_from_data, traverse, traverseFields, traverseChild,
      traverseItems]
    decide
  · simp only [visitedNodes, visitedFields, visitedChild, visitedItems]
    decide
  · decide

/-- C5 (amended). The walk continues past every emitted node: the people
extracted from a document are exactly the person records of the visited
dict nodes, in DFS order, where the visited nodes are the non-empty dict
nodes reachable through dict fields and through the dict items of list
fields — dict nodes occurring only inside a list nested directly within
another list are not visited. -/
theorem traversal_visits_characterization (data : Json) :
    extract_people_from_data data = (visitedTop data).filterMap person_of :=
  extract_eq_visited data

/-- C6 helper: folding with a candidate extractor is folding `addIfNew`
over the extracted candidates. -/
lemma foldPhones_eq_filterMap (f : Json → Option Json) (items : List Json) :
    ∀ acc, foldPhones f acc items = (items.filterMap f).foldl addIfNew acc := by
  induction items with
  | nil => intro acc; simp [foldPhones]
  | cons e rest ih =>
      intro acc
      cases he : f e <;>
        simp [foldPhones, List.filterMap_cons, he, ih, List.foldl_cons] <;>
        rw [← ih] <;> simp [foldPhones]

/-- Dedup-by-first-occurrence of a candidate list (the union order the
spec describes). -/
def dedupFirst (l : List Json) : List Json := l.foldl addIfNew []

/-- Candidate numbers of the `alternate_phones` block, in encounter order. -/
def candAlt (j : Json) : List Json := (listItems j "alternate_phones").filterMap altPhoneOf

/-- Candidate numbers of the `phones` block. -/
def candPhones (j : Json) : List Json := (listItems j "phones").filterMap phonesEntryOf

/-- Candidate numbers of the `phone_numbers` block. -/
def candPhoneNumbers (j : Json) : List Json :=
  (listItems j "phone_numbers").filterMap phoneNumbersEntryOf

/-- Candidate of the scalar `phone` field. -/
def candSingle (j : Json) : List Json :=
  if (j.getD "phone").truthy then [j.getD "phone"] else []

/-- C6 (amended). The extracted phone list is the deduplicated union, in
encounter order, of (a) the `phoneNumber` field of the object entries of
`alternate_phones` (bare strings and other field names are ignored there),
(b) the `phones` entries (objects under `phone_number`/`phoneNumber`/`phone`,
or bare strings), (c) the `phone_numbers` entries (objects under
`phone_number`/`phoneNumber`, or bare strings), and (d) the scalar `phone`
field; duplicates are dropped by exact value equality, first occurrence
kept. -/
theorem phones_union_amended (j : Json) :
    extract_phones j
      = dedupFirst (candAlt j ++ candPhones j ++ candPhoneNumbers j ++ candSingle j) := by
  simp only [extract_phones, dedupFirst, candAlt, candPhones, candPhoneNumbers,
    candSingle, foldPhones_eq_filterMap, List.foldl_append]
  by_cases h : (j.getD "phone").truthy <;> simp [h]

/-- The phone union as claim C6 states it: the alternate-phones block also
accepting bare strings and the several field names. -/
def claimAltPhoneOf (e : Json) : Option Json :=
  match e with
  | .obj _ => firstTruthy [e.getD "phone_number", e.getD "phoneNumber", e.getD "phone"]
  | .str s => if (Json.str s).truthy then some (Json.str s) else none
  | _ => none

/-- Claimed phone list of a person node per C6's wording. -/
def claimPhonesC6 (j : Json) : List Json :=
  dedupFirst ((listItems j "alternate_phones").filterMap claimAltPhoneOf
    ++ candPhones j ++ candPhoneNumbers j ++ candSingle j)

/-- C6 (counterexample). A bare-string entry of `alternate_phones` is part
of the union claim C6 describes, but the code's alternate-phones block
reads only the `phoneNumber` field of object entries, so the extracted
list is empty. -/
theorem phones_union_counterexample :
    extract_phones (Json.obj [("name", Json.str "Bob"),
        ("alternate_phones", Json.arr [Json.str "555"])])
      = []
    ∧ claimPhonesC6 (Json.obj [("name", Json.str "Bob"),
        ("alternate_phones", Json.arr [Json.str "555"])])
      = [Json.str "555"] := by
  exact ⟨by decide, by decide⟩

/-- C10 (counterexample). A node whose `name` field is the one-space
string is emitted with that name verbatim: only the firstname/lastname
combination is stripped, so the emitted name is non-empty but trims to the
empty string, contradicting the claim's trimming condition. -/
theorem person_name_whitespace_counterexample :
    extract_people_from_data (Json.obj [("name", Json.str " ")])
      = [{ name := Json.str " ", age := Json.str "", phones := [], addresses := [] }]
    ∧ String.mk (pyStrip " ".data) = "" := by
  refine ⟨?_, by decide⟩
  simp only [extract_people_from_data, traverse, traverseFields, traverseChild,
    traverseItems]
  decide

lemma person_of_name_truthy (j : Json) (p : Person)
    (h : person_of j = some p) : p.name.truthy = true := by
  unfold person_of at h
  by_cases h1 : ((j.getD "name").truthy ∨ (j.getD "firstname").truthy
      ∨ (j.getD "lastname").truthy)
  · rw [if_pos h1] at h
    by_cases h2 : (person_name j).truthy
    · rw [if_pos h2] at h
      cases h
      exact h2
    · rw [if_neg h2] at h
      cases h
  · rw [if_neg h1] at h
    cases h

/-- C10 (amended). Every person record the extractor emits has a truthy
name value: either the node's truthy `name` field kept verbatim (a
non-empty — though possibly whitespace-only — string when it is a string),
or the non-empty stripped combination of the firstname/lastname fields. -/
theorem person_name_truthy_amended (data : Json) (p : Person)
    (hp : p ∈ extract_people_from_data data) : p.name.truthy = true := by
  rw [extract_eq_visited] at hp
  obtain ⟨j, _, hj⟩ := List.mem_filterMap.mp hp
  exact person_of_name_truthy j p hj

/-- C10 witness: the amended invariant at a concrete document. -/
theorem person_name_truthy_amended_witness :
    ({ name := Json.str "Alice Smith", age := Json.str "", phones := [],
       addresses := [] } : Person).name.truthy = true :=
  person_name_truthy_amended (Json.obj [("name", Json.str "Alice Smith")])
    { name := Json.str "Alice Smith", age := Json.str "", phones := [], addresses := [] }
    (by
      simp only [extract_people_from_data, traverse, traverseFields, traverseChild,
        traverseItems]
      decide)

/-! ## Result accumulation (dialer_gui.py lines 1904-2103)

`process_lookup_data`, `accumulate_phone_results` and
`accumulate_address_results` are modelled by their pure cores: the
transformation of the `current_results` list.  Excel export, the Excel row
cache and the optional AI trigger that follow in the source are
presentation/IO and are outside the model. -/

/-- The original contact row fields the accumulators read
(`person.get('name'/'phone'/'address', '')`). -/
structure OrigPerson where
  name : String
  phone : String
  address : String
deriving DecidableEq

/-- One result row (the dict built at lines 1954-1981 / 2012-2024). -/
structure LeadResult where
  original_address : String
  original_phone : String
  blank : String
  age : Json
  original_name : String
  new_phones : List Json
  new_addresses : List String
  new_name : Json
  status : String
  notes : String
  address_lookup_failed : Bool
deriving DecidableEq

/-- The reserved sentinel name. -/
def noResultsName : Json := Json.str "NO RESULTS FOUND"

/-- `r.get('new_name') == 'NO RESULTS FOUND'`. -/
def isSentinelLead (r : LeadResult) : Bool := r.new_name = noResultsName

/-- Lines 1913-1915: the address lookup counts as failed when the address
document is falsy, lacks `current_residents`, or has a falsy one. -/
def addr_lookup_failed (address_data : Json) : Bool :=
  ¬ address_data.truthy || ¬ address_data.hasKey "current_residents"
    || ¬ (address_data.getD "current_residents").truthy

/-- Merge an incoming person into a matched `found_people` entry
(lines 1924-1930): union phones and addresses, nothing else. -/
def merge_person_fields (q p : Person) : Person :=
  { q with phones := p.phones.foldl addIfNew q.phones
           addresses := p.addresses.foldl addIfNewStr q.addresses }

/-- Update the first entry with the incoming person's name. -/
def update_first_person (l : List Person) (p : Person) : List Person :=
  match l with
  | [] => []
  | q :: rest =>
      if q.name = p.name then merge_person_fields q p :: rest
      else q :: update_first_person rest p

/-- One step of the `found_people` accumulation loop (lines 1920-1932):
merge into the first same-named entry, else append. -/
def merge_person_info (acc : List Person) (p : Person) : List Person :=
  if acc.any (fun q => q.name = p.name) then update_first_person acc p
  else acc ++ [p]

/-- A result row built from a found person (lines 1968-1981); the
accumulators build the same row with `address_lookup_failed := false`
(lines 2012-2024 / 2090-2102). -/
def lead_of (orig : OrigPerson) (flag : Bool) (p : Person) : LeadResult :=
  { original_address := orig.address
    original_phone := clean_phone orig.phone
    blank := ""
    age := p.age
    original_name := orig.name
    new_phones := p.phones
    new_addresses := p.addresses
    new_name := p.name
    status := ""
    notes := ""
    address_lookup_failed := flag }

/-- The sentinel row (lines 1954-1966). -/
def sentinel_lead (orig : OrigPerson) (flag : Bool) : LeadResult :=
  { original_address := orig.address
    original_phone := clean_phone orig.phone
    blank := ""
    age := Json.str ""
    original_name := orig.name
    new_phones := []
    new_addresses := []
    new_name := noResultsName
    status := ""
    notes := ""
    address_lookup_failed := flag }

/-- The people a data argument contributes
(`extract_people_from_data(data) if data else []`). -/
def peopleOf (data : Json) : List Person :=
  if data.truthy then extract_people_from_data data else []

/-- `process_lookup_data` (lines 1904-1983). -/
def process_lookup_data (orig : OrigPerson) (phone_data address_data : Json) :
    List LeadResult :=
  let flag := addr_lookup_failed address_data
  let fp1 := (peopleOf phone_data).foldl merge_person_info []
  let fp2 := (peopleOf address_data).foldl merge_person_info fp1
  if fp2.isEmpty then [sentinel_lead orig flag]
  else fp2.map (lead_of orig flag)

/-- Merge an incoming person into a matched result row (lines 1999-2009 /
2075-2087): union phones and addresses, fill a missing age; the address
variant additionally clears `address_lookup_failed`. -/
def merge_lead (r : LeadResult) (p : Person) (clearFlag : Bool) : LeadResult :=
  { r with new_phones := p.phones.foldl addIfNew r.new_phones
           new_addresses := p.addresses.foldl addIfNewStr r.new_addresses
           age := if p.age.truthy ∧ ¬ r.age.truthy then p.age else r.age
           address_lookup_failed := if clearFlag then false else r.address_lookup_failed }

/-- Update the first result row with the incoming person's name. -/
def update_first_lead (l : List LeadResult) (p : Person) (clearFlag : Bool) :
    List LeadResult :=
  match l with
  | [] => []
  | r :: rest =>
      if r.new_name = p.name then merge_lead r p clearFlag :: rest
      else r :: update_first_lead rest p clearFlag

/-- One step of the accumulation loops (lines 1995-2025 / 2071-2103). -/
def acc_step (orig : OrigPerson) (clearFlag : Bool) (cur : List LeadResult)
    (p : Person) : List LeadResult :=
  if cur.any (fun r => r.new_name = p.name) then update_first_lead cur p clearFlag
  else cur ++ [lead_of orig false p]

/-- Lines 1987 / 2063: take the fresh-start branch when there are no
current results or the first row is the sentinel. -/
def fresh_branch (current : List LeadResult) : Bool :=
  current.isEmpty || (match current with | [] => false | r :: _ => isSentinelLead r)

/-- Pure core of `accumulate_phone_results` (lines 1985-2025). -/
def accumulate_phone_results (current : List LeadResult) (phone_data : Json)
    (orig : OrigPerson) : List LeadResult :=
  if fresh_branch current then process_lookup_data orig phone_data Json.null
  else (peopleOf phone_data).foldl (acc_step orig false) current

/-- Pure core of `accumulate_address_results` (lines 2061-2103). -/
def accumulate_address_results (current : List LeadResult) (address_data : Json)
    (orig : OrigPerson) : List LeadResult :=
  if fresh_branch current then process_lookup_data orig Json.null address_data
  else (peopleOf address_data).foldl (acc_step orig true) current

/-! ### Sentinel and flag invariants of the accumulators -/

/-- The sentinel, when present, is the sole element. -/
def sentinel_ok (l : List LeadResult) : Bool :=
  decide (l.length ≤ 1) || l.all (fun r => !(isSentinelLead r))

/-- No person extracted from `data` carries the literal sentinel name. -/
def no_sentinel_people (data : Json) : Bool :=
  (peopleOf data).all (fun p => !(decide (p.name = noResultsName)))

lemma merge_person_fields_name (q p : Person) :
    (merge_person_fields q p).name = q.name := rfl

lemma name_update_first_person {l : List Person} {p x : Person}
    (hx : x ∈ update_first_person l p) : ∃ q ∈ l, x.name = q.name := by
  induction l with
  | nil => simp [update_first_person] at hx
  | cons q rest ih =>
      simp only [update_first_person] at hx
      by_cases h : q.name = p.name
      · rw [if_pos h] at hx
        rcases List.mem_cons.mp hx with h1 | h1
        · exact ⟨q, List.mem_cons_self q rest, by rw [h1, merge_person_fields_name]⟩
        · exact ⟨x, List.mem_cons_of_mem q h1, rfl⟩
      · rw [if_neg h] at hx
        rcases List.mem_cons.mp hx with h1 | h1
        · exact ⟨q, List.mem_cons_self q rest, by rw [h1]⟩
        · obtain ⟨q', hq', he⟩ := ih h1
          exact ⟨q', List.mem_cons_of_mem q hq', he⟩

lemma names_foldl_merge (P : Json → Prop) :
    ∀ (people : List Person) (acc : List Person),
      (∀ q ∈ acc, P q.name) → (∀ p ∈ people, P p.name) →
      ∀ q ∈ people.foldl merge_person_info acc, P q.name := by
  intro people
  induction people with
  | nil =>
      intro acc h1 _ q hq
      exact h1 q hq
  | cons p ps ih =>
      intro acc h1 h2 q hq
      simp only [List.foldl_cons] at hq
      refine ih (merge_person_info acc p) ?_ ?_ q hq
      · intro r hr
        unfold merge_person_info at hr
        by_cases hc : acc.any (fun q => q.name = p.name) = true
        · rw [if_pos hc] at hr
          obtain ⟨q', hq', he⟩ := name_update_first_person hr
          rw [he]
          exact h1 q' hq'
        · rw [if_neg hc] at hr
          rcases List.mem_append.mp hr with h | h
          · exact h1 r h
          · have : r = p := by simpa using h
            rw [this]
            exact h2 p (List.mem_cons_self p ps)
      · intro r hr
        exact h2 r (List.mem_cons_of_mem p hr)

lemma merge_lead_new_name (r : LeadResult) (p : Person) (b : Bool) :
    (merge_lead r p b).new_name = r.new_name := rfl

lemma lead_of_new_name (orig : OrigPerson) (b : Bool) (p : Person) :
    (lead_of orig b p).new_name = p.name := rfl

lemma name_update_first_lead {l : List LeadResult} {p : Person} {b : Bool}
    {x : LeadResult} (hx : x ∈ update_first_lead l p b) :
    ∃ r ∈ l, x.new_name = r.new_name := by
  induction l with
  | nil => simp [update_first_lead] at hx
  | cons r rest ih =>
      simp only [update_first_lead] at hx
      by_cases h : r.new_name = p.name
      · rw [if_pos h] at hx
        rcases List.mem_cons.mp hx with h1 | h1
        · exact ⟨r, List.mem_cons_self r rest, by rw [h1, merge_lead_new_name]⟩
        · exact ⟨x, List.mem_cons_of_mem r h1, rfl⟩
      · rw [if_neg h] at hx
        rcases List.mem_cons.mp hx with h1 | h1
        · exact ⟨r, List.mem_cons_self r rest, by rw [h1]⟩
        · obtain ⟨r', hr', he⟩ := ih h1
          exact ⟨r', List.mem_cons_of_mem r hr', he⟩

lemma names_foldl_acc (orig : OrigPerson) (b : Bool) (P : Json → Prop) :
    ∀ (people : List Person) (cur : List LeadResult),
      (∀ r ∈ cur, P r.new_name) → (∀ p ∈ people, P p.name) →
      ∀ r ∈ people.foldl (acc_step orig b) cur, P r.new_name := by
  intro people
  induction people with
  | nil =>
      intro cur h1 _ r hr
      exact h1 r hr
  | cons p ps ih =>
      intro cur h1 h2 r hr
      simp only [List.foldl_cons] at hr
      refine ih (acc_step orig b cur p) ?_ ?_ r hr
      · intro x hx
        unfold acc_step at hx
        by_cases hc : cur.any (fun r => r.new_name = p.name) = true
        · rw [if_pos hc] at hx
          obtain ⟨r', hr', he⟩ := name_update_first_lead hx
          rw [he]
          exact h1 r' hr'
        · rw [if_neg hc] at hx
          rcases List.mem_append.mp hx with h | h
          · exact h1 x h
          · have : x = lead_of orig false p := by simpa using h
            rw [this, lead_of_new_name]
            exact h2 p (List.mem_cons_self p ps)
      · intro q hq
        exact h2 q (List.mem_cons_of_mem p hq)

lemma flag_update_first_lead {l : List LeadResult} {p : Person} {x : LeadResult}
    (hx : x ∈ update_first_lead l p true)
    (hf : x.address_lookup_failed = true) : x ∈ l := by
  induction l with
  | nil => simp [update_first_lead] at hx
  | cons r rest ih =>
      simp only [update_first_lead] at hx
      by_cases h : r.new_name = p.name
      · rw [if_pos h] at hx
        rcases List.mem_cons.mp hx with h1 | h1
        · rw [h1] at hf
          simp [merge_lead] at hf
        · exact List.mem_cons_of_mem r h1
      · rw [if_neg h] at hx
        rcases List.mem_cons.mp hx with h1 | h1
        · rw [h1]
          exact List.mem_cons_self r rest
        · exact List.mem_cons_of_mem r (ih h1)

lemma flag_foldl_acc (orig : OrigPerson) :
    ∀ (people : List Person) (cur : List LeadResult),
      ∀ r ∈ people.foldl (acc_step orig true) cur,
        r.address_lookup_failed = true → r ∈ cur := by
  intro people
  induction people with
  | nil =>
      intro cur r hr _
      exact hr
  | cons p ps ih =>
      intro cur r hr hf
      simp only [List.foldl_cons] at hr
      have hstep : r ∈ acc_step orig true cur p := ih (acc_step orig true cur p) r hr hf
      unfold acc_step at hstep
      by_cases hc : cur.any (fun r => r.new_name = p.name) = true
      · rw [if_pos hc] at hstep
        exact flag_update_first_lead hstep hf
      · rw [if_neg hc] at hstep
        rcases List.mem_append.mp hstep with h | h
        · exact h
        · have : r = lead_of orig false p := by simpa using h
          rw [this] at hf
          simp [lead_of] at hf

lemma process_lookup_data_flag (orig : OrigPerson) (pd ad : Json) :
    ∀ r ∈ process_lookup_data orig pd ad,
      r.address_lookup_failed = addr_lookup_failed ad := by
  intro r hr
  unfold process_lookup_data at hr
  by_cases he :
      ((peopleOf ad).foldl merge_person_info
        ((peopleOf pd).foldl merge_person_info [])).isEmpty = true
  · simp only [he, if_pos, ite_true] at hr
    have : r = sentinel_lead orig (addr_lookup_failed ad) := by simpa using hr
    rw [this]
    rfl
  · simp only [he, if_neg, ite_false] at hr
    obtain ⟨p, _, hp⟩ := List.mem_map.mp hr
    rw [← hp]
    rfl

lemma no_sentinel_people_unpack {d : Json} (h : no_sentinel_people d = true) :
    ∀ p ∈ peopleOf d, ¬ p.name = noResultsName := by
  intro p hp
  have := List.all_eq_true.mp h p hp
  simpa using this

lemma process_sentinel_ok (orig : OrigPerson) (pd ad : Json)
    (hpd : no_sentinel_people pd = true) (had : no_sentinel_people ad = true) :
    sentinel_ok (process_lookup_data orig pd ad) = true := by
  unfold process_lookup_data
  by_cases he :
      ((peopleOf ad).foldl merge_person_info
        ((peopleOf pd).foldl merge_person_info [])).isEmpty = true
  · simp [he, sentinel_ok]
  · simp only [he, if_neg, ite_false]
    have hfp : ∀ q ∈ (peopleOf ad).foldl merge_person_info
        ((peopleOf pd).foldl merge_person_info []), ¬ q.name = noResultsName := by
      apply names_foldl_merge (fun n => ¬ n = noResultsName)
      · apply names_foldl_merge (fun n => ¬ n = noResultsName)
        · intro q hq
          simp at hq
        · exact no_sentinel_people_unpack hpd
      · exact no_sentinel_people_unpack had
    unfold sentinel_ok
    apply Bool.or_eq_true_iff.mpr
    right
    apply List.all_eq_true.mpr
    intro r hr
    obtain ⟨p, hp, hrp⟩ := List.mem_map.mp hr
    have := hfp p hp
    simp [← hrp, isSentinelLead, lead_of_new_name]
    exact this

lemma nonsentinel_of_ok {l : List LeadResult} (hok : sentinel_ok l = true)
    (hfb : fresh_branch l = false) : ∀ r ∈ l, ¬ r.new_name = noResultsName := by
  intro r hr
  match l, hr with
  | r0 :: rest, hr =>
      have hhead : isSentinelLead r0 = false := by
        unfold fresh_branch at hfb
        simpa using hfb
      rcases Bool.or_eq_true_iff.mp hok with h | h
      · have hlen : (r0 :: rest).length ≤ 1 := of_decide_eq_true h
        have hlen0 : rest.length = 0 := by
          simp only [List.length_cons] at hlen
          omega
        have : rest = [] := List.length_eq_zero.mp hlen0
        subst this
        have : r = r0 := by simpa using hr
        subst this
        simpa [isSentinelLead] using hhead
      · have := List.all_eq_true.mp h r hr
        simpa [isSentinelLead] using this

lemma null_no_sentinel : no_sentinel_people Json.null = true := by decide

/-- C2 (amended). Provided no extracted incoming person carries the
literal name `NO RESULTS FOUND`, the accumulator operations preserve the
sentinel invariant — a sentinel row, when present, is the sole element —
and merging any pass into an empty or sentinel-headed list discards the
old list entirely and rebuilds it from the incoming documents alone. -/
theorem sentinel_invariant_amended
    (current : List LeadResult) (pd ad d : Json) (orig : OrigPerson)
    (hcur : sentinel_ok current = true)
    (hpd : no_sentinel_people pd = true)
    (had : no_sentinel_people ad = true)
    (hd : no_sentinel_people d = true) :
    sentinel_ok (process_lookup_data orig pd ad) = true
    ∧ sentinel_ok (accumulate_phone_results current d orig) = true
    ∧ sentinel_ok (accumulate_address_results current d orig) = true
    ∧ (fresh_branch current = true →
        accumulate_phone_results current d orig = process_lookup_data orig d Json.null
        ∧ accumulate_address_results current d orig
            = process_lookup_data orig Json.null d) := by
  refine ⟨process_sentinel_ok orig pd ad hpd had, ?_, ?_, ?_⟩
  · unfold accumulate_phone_results
    by_cases hfb : fresh_branch current = true
    · simp only [hfb, ite_true]
      exact process_sentinel_ok orig d Json.null hd null_no_sentinel
    · have hfb' : fresh_branch current = false := by simpa using hfb
      simp only [hfb', Bool.false_eq_true, ite_false]
      have hres : ∀ r ∈ (peopleOf d).foldl (acc_step orig false) current,
          ¬ r.new_name = noResultsName :=
        names_foldl_acc orig false (fun n => ¬ n = noResultsName) (peopleOf d) current
          (nonsentinel_of_ok hcur hfb') (no_sentinel_people_unpack hd)
      unfold sentinel_ok
      apply Bool.or_eq_true_iff.mpr
      right
      apply List.all_eq_true.mpr
      intro r hr
      have := hres r hr
      simpa [isSentinelLead] using this
  · unfold accumulate_address_results
    by_cases hfb : fresh_branch current = true
    · simp only [hfb, ite_true]
      exact process_sentinel_ok orig Json.null d null_no_sentinel hd
    · have hfb' : fresh_branch current = false := by simpa using hfb
      simp only [hfb', Bool.false_eq_true, ite_false]
      have hres : ∀ r ∈ (peopleOf d).foldl (acc_step orig true) current,
          ¬ r.new_name = noResultsName :=
        names_foldl_acc orig true (fun n => ¬ n = noResultsName) (peopleOf d) current
          (nonsentinel_of_ok hcur hfb') (no_sentinel_people_unpack hd)
      unfold sentinel_ok
      apply Bool.or_eq_true_iff.mpr
      right
      apply List.all_eq_true.mpr
      intro r hr
      have := hres r hr
      simpa [isSentinelLead] using this
  · intro hfb
    unfold accumulate_phone_results accumulate_address_results
    simp [hfb]

/-- C2 witness: the amended invariant at concrete inputs. -/
theorem sentinel_invariant_amended_witness :
    sentinel_ok (accumulate_phone_results []
      (Json.obj [("name", Json.str "Alice")]) ⟨"A", "4155551234", "addr"⟩) = true :=
  (sentinel_invariant_amended [] Json.null Json.null
    (Json.obj [("name", Json.str "Alice")]) ⟨"A", "4155551234", "addr"⟩
    (by decide) (by decide) (by decide)
    (by
      unfold no_sentinel_people peopleOf
      simp only [extract_people_from_data, traverse, traverseFields, traverseChild,
        traverseItems]
      decide)).2.1

/-- C2 (counterexample). A document containing a person literally named
`NO RESULTS FOUND` next to a real person produces, in one
`process_lookup_data` pass, a two-element list mixing the sentinel name
with a real entry, violating the claimed invariant. -/
theorem sentinel_mixing_counterexample :
    (process_lookup_data ⟨"", "", ""⟩
        (Json.obj [("a", Json.obj [("name", Json.str "Alice")]),
                   ("b", Json.obj [("name", Json.str "NO RESULTS FOUND")])])
        Json.null).map LeadResult.new_name
      = [Json.str "Alice", Json.str "NO RESULTS FOUND"]
    ∧ sentinel_ok (process_lookup_data ⟨"", "", ""⟩
        (Json.obj [("a", Json.obj [("name", Json.str "Alice")]),
                   ("b", Json.obj [("name", Json.str "NO RESULTS FOUND")])])
        Json.null) = false := by
  constructor
  · simp only [process_lookup_data, peopleOf, extract_people_from_data, traverse,
      traverseFields, traverseChild, traverseItems]
    decide
  · simp only [sentinel_ok, process_lookup_data, peopleOf, extract_people_from_data,
      traverse, traverseFields, traverseChild, traverseItems]
    decide

/-- C7 (amended). `addressLookupFailed` is set exactly by an address-source
miss: in the fresh-start branch every produced row carries the flag value
`addr_lookup_failed address_data` (which is true whenever the document
lacks a non-empty `current_residents` list, even if person records were
extracted from it); in the merge branch every row still flagged after the
pass is an unmodified pre-existing row — rows matched by the pass are
cleared and newly appended rows carry `false`. -/
theorem address_flag_amended
    (current : List LeadResult) (address_data : Json) (orig : OrigPerson) :
    (fresh_branch current = true →
      accumulate_address_results current address_data orig
          = process_lookup_data orig Json.null address_data
      ∧ ∀ r ∈ accumulate_address_results current address_data orig,
          r.address_lookup_failed = addr_lookup_failed address_data)
    ∧ (fresh_branch current = false →
      ∀ r ∈ accumulate_address_results current address_data orig,
        r.address_lookup_failed = true → r ∈ current) := by
  constructor
  · intro hfb
    have heq : accumulate_address_results current address_data orig
        = process_lookup_data orig Json.null address_data := by
      unfold accumulate_address_results
      simp [hfb]
    refine ⟨heq, ?_⟩
    rw [heq]
    exact process_lookup_data_flag orig Json.null address_data
  · intro hfb r hr hf
    unfold accumulate_address_results at hr
    simp only [hfb, Bool.false_eq_true, ite_false] at hr
    exact flag_foldl_acc orig (peopleOf address_data) current r hr hf

/-- C7 witness: the amended statement's fresh branch at concrete inputs. -/
theorem address_flag_amended_witness :
    accumulate_address_results [] (Json.obj [("name", Json.str "Bob")]) ⟨"", "", ""⟩
      = process_lookup_data ⟨"", "", ""⟩ Json.null (Json.obj [("name", Json.str "Bob")]) :=
  ((address_flag_amended [] (Json.obj [("name", Json.str "Bob")]) ⟨"", "", ""⟩).1
    (by decide)).1

/-- C7 (counterexample). Merging a non-empty address-source pass — the
document yields the person `Bob` — into an empty list leaves
`address_lookup_failed = true` on the produced row, because the document
has no `current_residents` key: the flag is not cleared by merging an
address-sourced person record. -/
theorem address_flag_counterexample :
    peopleOf (Json.obj [("name", Json.str "Bob")])
      = [{ name := Json.str "Bob", age := Json.str "", phones := [], addresses := [] }]
    ∧ accumulate_address_results [] (Json.obj [("name", Json.str "Bob")]) ⟨"", "", ""⟩
      = [{ original_address := "", original_phone := "", blank := "",
           age := Json.str "", original_name := "", new_phones := [],
           new_addresses := [], new_name := Json.str "Bob", status := "",
           notes := "", address_lookup_failed := true }] := by
  constructor
  · simp only [peopleOf, extract_people_from_data, traverse, traverseFields,
      traverseChild, traverseItems]
    decide
  · simp only [accumulate_address_results, fresh_branch, process_lookup_data,
      peopleOf, extract_people_from_data, traverse, traverseFields, traverseChild,
      traverseItems]
    decide

/-! ## Address parsing (`LeadProcessor.parse_address`, lead_processor_v2.py lines 44-222)

The regex searches are modelled as explicit leftmost scans over the
character list. -/

/-- `\w` (ASCII view): letters, digits, underscore. -/
def isWordChar (c : Char) : Bool := c.isAlpha || c.isDigit || c = '_'

/-- A word boundary holds before the current position. -/
def prevNonWord : Option Char → Bool
  | none => true
  | some c => !isWordChar c

/-- Case-insensitive character-list equality (`re.IGNORECASE`). -/
def ciEq (a b : List Char) : Bool := a.map Char.toLower = b.map Char.toLower

/-- Alternatives of the country-stripping pattern, line 61. -/
def countryAlts : List String := ["USA", "US", "United States", "U.S.A.", "U.S."]

/-- Does `w` match `\s*,?\s*`? -/
def spacesCommaSpaces (w : List Char) : Bool :=
  match w.dropWhile Char.isWhitespace with
  | [] => true
  | ',' :: r2 => r2.all Char.isWhitespace
  | _ => false

/-- Does the whole suffix `t` match `\s*,?\s*(USA|US|United States|U\.S\.A\.|U\.S\.)$`? -/
def countrySuffix (t : List Char) : Bool :=
  countryAlts.any (fun alt =>
    decide (alt.data.length ≤ t.length)
      && ciEq (t.drop (t.length - alt.data.length)) alt.data
      && spacesCommaSpaces (t.take (t.length - alt.data.length)))

/-- `re.sub(r'\s*,?\s*(USA|...)$', '', s, flags=re.IGNORECASE)`: the match,
when one exists, is anchored at the end; cut at the leftmost start. -/
def stripCountry (cs : List Char) : List Char :=
  match (List.range (cs.length + 1)).find? (fun i => countrySuffix (cs.drop i)) with
  | some i => cs.take i
  | none => cs

/-- Is the first non-whitespace character a comma? -/
def leadsToComma (l : List Char) : Bool :=
  match l.dropWhile Char.isWhitespace with
  | ',' :: _ => true
  | _ => false

/-- `re.sub(r'\s*,\s*', ', ', s)` (line 64): every comma becomes `, ` and
the whitespace adjacent to a comma is absorbed into the match.
`prevIsComma` records whether the nearest non-space character to the left
is a comma (so the whitespace following a comma is dropped). -/
def normCommasGo (prevIsComma : Bool) : List Char → List Char
  | [] => []
  | ',' :: rest => ',' :: ' ' :: normCommasGo true rest
  | c :: rest =>
      if c.isWhitespace then
        if prevIsComma || leadsToComma rest then normCommasGo prevIsComma rest
        else c :: normCommasGo prevIsComma rest
      else c :: normCommasGo false rest

def normCommas (cs : List Char) : List Char := normCommasGo false cs

/-- A word boundary holds right after the consumed digits. -/
def boundaryAfter : List Char → Bool
  | [] => true
  | d :: _ => !isWordChar d

/-- Does `\d{5}(?:-\d{4})?\b` match here (greedy optional part first)? -/
def zipHere (t : List Char) : Option (List Char) :=
  let five := t.take 5
  if decide (five.length = 5) && five.all Char.isDigit then
    let u := t.drop 5
    match u with
    | '-' :: u2 =>
        let four := u2.take 4
        if decide (four.length = 4) && four.all Char.isDigit
            && boundaryAfter (u2.drop 4) then
          some (five ++ '-' :: four)
        else if boundaryAfter u then some five else none
    | _ => if boundaryAfter u then some five else none
  else none

/-- Leftmost scan for `\b(\d{5}(?:-\d{4})?)\b` (line 67). -/
def findZipGo (prev : Option Char) (t : List Char) (i : Nat) :
    Option (Nat × List Char) :=
  match t with
  | [] => none
  | c :: rest =>
      match if prevNonWord prev then zipHere t else none with
      | some z => some (i, z)
      | none => findZipGo (some c) rest (i + 1)

def findZip (cs : List Char) : Option (Nat × List Char) := findZipGo none cs 0

/-- Leftmost scan for `\b([A-Z]{2})\s*$` (line 80, no IGNORECASE). -/
def findStateCode (prev : Option Char) (t : List Char) (i : Nat) :
    Option (Nat × List Char) :=
  match t with
  | c1 :: c2 :: rest =>
      if prevNonWord prev ∧ ('A' ≤ c1 ∧ c1 ≤ 'Z') ∧ ('A' ≤ c2 ∧ c2 ≤ 'Z')
          ∧ rest.all Char.isWhitespace then
        some (i, [c1, c2])
      else findStateCode (some c1) (c2 :: rest) (i + 1)
  | _ => none

/-- The `state_names` dict (lines 89-101), in insertion order. -/
def stateNamesTable : List (String × String) :=
  [("alabama", "AL"), ("alaska", "AK"), ("arizona", "AZ"), ("arkansas", "AR"),
   ("california", "CA"), ("colorado", "CO"), ("connecticut", "CT"),
   ("delaware", "DE"), ("florida", "FL"), ("georgia", "GA"), ("hawaii", "HI"),
   ("idaho", "ID"), ("illinois", "IL"), ("indiana", "IN"), ("iowa", "IA"),
   ("kansas", "KS"), ("kentucky", "KY"), ("louisiana", "LA"), ("maine", "ME"),
   ("maryland", "MD"), ("massachusetts", "MA"), ("michigan", "MI"),
   ("minnesota", "MN"), ("mississippi", "MS"), ("missouri", "MO"),
   ("montana", "MT"), ("nebraska", "NE"), ("nevada", "NV"),
   ("new hampshire", "NH"), ("new jersey", "NJ"), ("new mexico", "NM"),
   ("new york", "NY"), ("north carolina", "NC"), ("north dakota", "ND"),
   ("ohio", "OH"), ("oklahoma", "OK"), ("oregon", "OR"), ("pennsylvania", "PA"),
   ("rhode island", "RI"), ("south carolina", "SC"), ("south dakota", "SD"),
   ("tennessee", "TN"), ("texas", "TX"), ("utah", "UT"), ("vermont", "VT"),
   ("virginia", "VA"), ("washington", "WA"), ("west virginia", "WV"),
   ("wisconsin", "WI"), ("wyoming", "WY")]

/-- Leftmost scan for `\b<name>\b\s*$` (case-insensitive, line 104). -/
def findNameAt (name : List Char) (prev : Option Char) (t : List Char) (i : Nat) :
    Option Nat :=
  match t with
  | [] => none
  | c :: rest =>
      if prevNonWord prev && decide (name.length ≤ t.length)
          && ciEq (t.take name.length) name
          && (t.drop name.length).all Char.isWhitespace then some i
      else findNameAt name (some c) rest (i + 1)

/-- The state-name fallback loop (lines 103-109): first table entry whose
pattern matches wins. -/
def findStateName (cs : List Char) : Option (Nat × String) :=
  stateNamesTable.findSome? (fun nc =>
    (findNameAt nc.1.data none cs 0).map (fun i => (i, nc.2)))

/-- Split on every character satisfying `p`, keeping empty segments. -/
def splitOnPred (p : Char → Bool) : List Char → List (List Char)
  | [] => [[]]
  | c :: rest =>
      let r := splitOnPred p rest
      if p c then [] :: r
      else
        match r with
        | h :: t => (c :: h) :: t
        | [] => [[c]]

/-- Python `s.split(',')`. -/
def splitComma (l : List Char) : List (List Char) := splitOnPred (fun c => c = ',') l

/-- Python `s.split()`: split on whitespace runs, dropping empty tokens. -/
def splitWS (l : List Char) : List (List Char) :=
  (splitOnPred Char.isWhitespace l).filter (fun w => !w.isEmpty)

/-- `' '.join`. -/
def joinSpace (ws : List (List Char)) : List Char := List.intercalate [' '] ws

/-- `', '.join`. -/
def joinCommaSpace (ws : List (List Char)) : List Char := List.intercalate (", ".data) ws

/-- `street_suffixes` (lines 140-146). -/
def street_suffixes : List String :=
  ["street", "st", "avenue", "ave", "road", "rd", "drive", "dr",
   "lane", "ln", "court", "ct", "circle", "cir", "boulevard", "blvd",
   "way", "place", "pl", "parkway", "pkwy", "trail", "terrace", "ter",
   "highway", "hwy", "freeway", "expressway", "loop", "path", "pike",
   "row", "run", "square", "sq", "alley", "walk", "crossing"]

/-- `secondary_designators` (lines 148-151). -/
def secondary_designators : List String :=
  ["apartment", "apt", "suite", "ste", "unit", "building", "bldg",
   "floor", "fl", "room", "rm", "#", "number", "no"]

/-- `part.lower().rstrip('.')`. -/
def suffixKey (w : List Char) : List Char :=
  dropTrailing (fun c => c = '.') (w.map Char.toLower)

/-- `part.lower().rstrip('.#')`. -/
def designatorKey (w : List Char) : List Char :=
  dropTrailing (fun c => c = '.' || c = '#') (w.map Char.toLower)

def isStreetSuffix (w : List Char) : Bool :=
  street_suffixes.any (fun s => s.data = suffixKey w)

def isDesignator (w : List Char) : Bool :=
  secondary_designators.any (fun s => s.data = designatorKey w)

/-- `parts[0].replace('#','').replace('-','').isdigit()` (line 187). -/
def numericFirst (w : List Char) : Bool :=
  let w2 := w.filter (fun c => !(c = '#' || c = '-'))
  !w2.isEmpty && w2.all Char.isDigit

/-- The parsed address struct. -/
structure ParsedAddress where
  street : String
  city : String
  state : String
  zip : String
deriving DecidableEq

/-- The street/city split applied below the state (lines 116-210). -/
def splitStreetCity (before_state0 : List Char) (state zipS : String) :
    ParsedAddress :=
  let bs := pyStrip (dropLeading (fun c => c = ',')
    (dropTrailing (fun c => c = ',') (pyStrip before_state0)))
  if bs.contains ',' then
    let parts := (splitComma bs).map pyStrip
    if 2 ≤ parts.length then
      { street := String.mk (pyStrip (joinCommaSpace (parts.dropLast)))
        city := String.mk (pyStrip (parts.getLastD []))
        state := state, zip := zipS }
    else
      { street := String.mk (pyStrip (parts.headD []))
        city := "", state := state, zip := zipS }
  else
    let parts := splitWS bs
    if parts.length ≤ 2 then
      { street := String.mk bs, city := "", state := state, zip := zipS }
    else
      let idx : Option Nat :=
        match parts.findIdx? (fun w => isStreetSuffix w) with
        | none => none
        | some i =>
            match parts.get? (i + 1) with
            | some nxt =>
                if isDesignator nxt then
                  if i + 2 < parts.length then some (i + 3) else some (i + 2)
                else some (i + 1)
            | none => some (i + 1)
      match idx with
      | some k =>
          if k < parts.length then
            { street := String.mk (pyStrip (joinSpace (parts.take k)))
              city := String.mk (pyStrip (joinSpace (parts.drop k)))
              state := state, zip := zipS }
          else
            { street := String.mk (pyStrip (joinSpace parts))
              city := "", state := state, zip := zipS }
      | none =>
          if numericFirst (parts.headD []) then
            if 5 ≤ parts.length ∨ 4 ≤ parts.length then
              { street := String.mk (pyStrip (joinSpace (parts.take (parts.length - 2))))
                city := String.mk (pyStrip (joinSpace (parts.drop (parts.length - 2))))
                state := state, zip := zipS }
            else
              { street := String.mk (pyStrip (joinSpace (parts.dropLast)))
                city := String.mk (pyStrip (parts.getLastD []))
                state := state, zip := zipS }
          else
            if 4 ≤ parts.length then
              { street := String.mk (pyStrip (joinSpace (parts.take (parts.length - 2))))
                city := String.mk (pyStrip (joinSpace (parts.drop (parts.length - 2))))
                state := state, zip := zipS }
            else
              { street := String.mk (pyStrip (joinSpace (parts.dropLast)))
                city := String.mk (pyStrip (parts.getLastD []))
                state := state, zip := zipS }

/-- `LeadProcessor.parse_address` (lines 44-222).  `pd.isna` concerns
missing spreadsheet cells, which do not arise for plain strings. -/
def parse_address (address_str : String) : ParsedAddress :=
  if address_str = "" then { street := "", city := "", state := "", zip := "" }
  else
    let cs := normCommas (stripCountry (pyStrip address_str.data))
    match findZip cs with
    | none => { street := String.mk cs, city := "", state := "", zip := "" }
    | some (zi, zipCs) =>
        let zipS := String.mk zipCs
        let before_zip := dropTrailing (fun c => c = ',') (pyStrip (cs.take zi))
        match findStateCode none before_zip 0 with
        | some (si, sc) =>
            splitStreetCity (dropTrailing (fun c => c = ',')
              (pyStrip (before_zip.take si))) (String.mk sc) zipS
        | none =>
            match findStateName before_zip with
            | some (si, code) =>
                splitStreetCity (dropTrailing (fun c => c = ',')
                  (pyStrip (before_zip.take si))) code zipS
            | none =>
                { street := String.mk before_zip, city := "", state := "", zip := zipS }

/-- C8. The documented example parses exactly as the spec states. -/
theorem parse_address_austin_example :
    parse_address "1234 Main Street, Austin, TX 78701"
      = { street := "1234 Main Street", city := "Austin", state := "TX",
          zip := "78701" } := by
  decide

end PassionOfRugs
